import Mathlib

/-!
Verification development for the vision MCP provider-adapter layer.

Shallow embedding of the TypeScript sources:
 * `src/vision_mcp/src/utils/image-input.ts` (input classification,
   normalization, error taxonomy with credential sanitization),
 * `src/unnamed/part_000` (thinking-content filter, `stripThinking`),
 * `src/src/adapters/base-adapter.ts` (retry/timeout engine `withRetry`),
 * `src/vision_mcp/src/config/model-config.ts` and
   `src/vision_mcp/src/providers/provider-registry.ts` (`loadModelConfig`).

JavaScript strings are modelled as Lean `String`/`List Char` (the inputs in
all claims are ASCII, where UTF-16 code-unit length and char count agree).
Platform built-ins used by the code (`String.prototype.replace` with the
concrete regexes, `new URL`, `Buffer.toString('base64')`, `parseInt`) are
embedded as executable Lean functions reproducing their semantics on the
inputs the code feeds them; simplifications are noted at each definition.
-/

namespace VisionMCP

/-! ## Generic character-list helpers (JS string primitives) -/

/-- JS whitespace class `\s`, restricted to its ASCII members (the code and
all inputs in the claims are ASCII). -/
def isWsChar (c : Char) : Bool :=
  c = ' ' || c = '\t' || c = '\n' || c = '\r' || c = '\x0b' || c = '\x0c'

/-- ASCII lower-casing, as used by `toLowerCase` / case-insensitive regexes
on the ASCII patterns of the source. -/
def lcChar (c : Char) : Char :=
  if 'A' ≤ c && c ≤ 'Z' then Char.ofNat (c.toNat + 32) else c

def lcList (s : List Char) : List Char := s.map lcChar

/-- `pat` is a prefix of `s` (exact). -/
def headMatches : List Char → List Char → Bool
  | [], _ => true
  | _ :: _, [] => false
  | p :: ps, c :: cs => p = c && headMatches ps cs

/-- `pat` is a prefix of `s`, comparing ASCII case-insensitively
(`pat` is given already lower-case). -/
def headMatchesCI : List Char → List Char → Bool
  | [], _ => true
  | _ :: _, [] => false
  | p :: ps, c :: cs => p = lcChar c && headMatchesCI ps cs

/-- Some suffix of `s` starts with `pat` (JS `String.prototype.includes`). -/
def hasSub (pat : List Char) : List Char → Bool
  | [] => headMatches pat []
  | c :: cs => headMatches pat (c :: cs) || hasSub pat cs

/-- JS `startsWith` on strings. -/
def jsStartsWith (s pat : String) : Bool := headMatches pat.data s.data

/-- JS `includes` on strings. -/
def jsIncludes (s pat : String) : Bool := hasSub pat.data s.data

/-- JS `endsWith` on strings. -/
def jsEndsWith (s pat : String) : Bool := headMatches pat.data.reverse s.data.reverse

/-- Number of occurrences of a character in a string. -/
def countChar (ch : Char) (s : String) : Nat := s.data.countP (· = ch)

/-- Split off the part of the list strictly before the first occurrence of
`ch`, together with the part after it (`none` if `ch` is absent). -/
def splitAtChar (ch : Char) : List Char → Option (List Char × List Char)
  | [] => none
  | c :: cs =>
    if c = ch then some ([], cs)
    else match splitAtChar ch cs with
      | some (pre, post) => some (c :: pre, post)
      | none => none

/-! ## Image input classification (`image-input.ts`, `detectInputType`) -/

inductive ImageInputType where
  | url
  | base64
  | local
deriving DecidableEq, Repr

/-- `detectInputType` from `image-input.ts`: data-URL pattern first
(`data:image/` prefix and `;base64,` somewhere), then http(s) prefix,
else local path. -/
def detectInputType (input : String) : ImageInputType :=
  if jsStartsWith input "data:image/" && jsIncludes input ";base64," then .base64
  else if jsStartsWith input "http://" || jsStartsWith input "https://" then .url
  else .local

/-! ## MIME allow-lists (`image-input.ts`) -/

/-- `SUPPORTED_MIME_TYPES` from `image-input.ts`. -/
def SUPPORTED_MIME_TYPES : List String :=
  ["image/jpeg", "image/jpg", "image/png", "image/webp"]

/-- `EXT_TO_MIME_TYPE` from `image-input.ts`, as an association list in
declaration order (`Object.keys` enumerates it in this order). -/
def EXT_TO_MIME_TYPE : List (String × String) :=
  [(".jpg", "image/jpeg"), (".jpeg", "image/jpeg"),
   (".png", "image/png"), (".webp", "image/webp")]

def extToMimeKeys : List String := EXT_TO_MIME_TYPE.map Prod.fst

def extToMimeLookup (ext : String) : Option String :=
  (EXT_TO_MIME_TYPE.find? (fun p => p.fst = ext)).map Prod.snd

/-- JS `filename.toLowerCase().substring(filename.lastIndexOf('.'))`:
the extension including the dot; when there is no dot, `lastIndexOf`
returns `-1` and `substring(-1)` is the whole (lower-cased) string. -/
def jsExtOf (filename : String) : String :=
  let lc := lcList filename.data
  match (List.range lc.length).reverse.find? (fun i => lc.getD i ' ' = '.') with
  | some i => ⟨lc.drop i⟩
  | none => ⟨lc⟩

/-- `getMimeTypeFromFileName`: map the extension through the allow-list;
`none` models the thrown `InvalidInputError` (reified by the caller). -/
def getMimeTypeFromFileName (filename : String) : Option String :=
  extToMimeLookup (jsExtOf filename)

/-! ## URL model (`new URL`, restricted to http(s) inputs)

The WHATWG `URL` constructor is a platform built-in.  We model exactly the
part the code exercises: inputs beginning with `http://` or `https://`,
with the authority ending at the first `/`, `?` or `#`, and the pathname
running from that `/` to the first `?` or `#`.  An empty authority fails to
parse (models the thrown `TypeError`).  Percent-decoding and dot-segment
normalization are not modelled; all witnesses use URLs they do not affect. -/

structure UrlParts where
  protocol : String
  pathname : String
deriving DecidableEq, Repr

def splitAuthority (rest : List Char) : List Char × List Char :=
  match rest with
  | [] => ([], [])
  | c :: cs =>
    if c = '/' || c = '?' || c = '#' then ([], c :: cs)
    else
      let (a, t) := splitAuthority cs
      (c :: a, t)

def pathnameOf (tail : List Char) : List Char :=
  match tail with
  | '/' :: _ => tail.takeWhile (fun c => !(c = '?' || c = '#'))
  | _ => ['/']

def parseHttpUrl (input : String) : Option UrlParts :=
  if jsStartsWith input "http://" then
    if (splitAuthority (input.data.drop 7)).1.isEmpty then none
    else some ⟨"http:", ⟨pathnameOf (splitAuthority (input.data.drop 7)).2⟩⟩
  else if jsStartsWith input "https://" then
    if (splitAuthority (input.data.drop 8)).1.isEmpty then none
    else some ⟨"https:", ⟨pathnameOf (splitAuthority (input.data.drop 8)).2⟩⟩
  else none

/-- `isImageUrl` from `image-input.ts`: parse the URL, lower-case the
pathname, and test whether it ends with one of the allowed extensions;
a parse failure yields `false`. -/
def isImageUrl (url : String) : Bool :=
  match parseHttpUrl url with
  | none => false
  | some u => extToMimeKeys.any (fun ext => jsEndsWith ⟨lcList u.pathname.data⟩ ext)

/-! ## Credential sanitization (`ModelAPIError` in `image-input.ts`)

`sanitizeUrlInString` applies the regex
`/[?&](?:key|api_key|apikey|token|access_token|api-key|apikey)=([^&\s]+)/gi`,
replacing each match by the separator, the parameter name exactly as it
appeared (`match.slice(1).split('=')[0]`), and `=***`. -/

/-- The alternation of credential parameter names, in the regex's order
(the duplicate `apikey` is in the source). -/
def credParamNames : List String :=
  ["key", "api_key", "apikey", "token", "access_token", "api-key", "apikey"]

/-- A character the value class `[^&\s]` of the credential regex accepts. -/
def isValueChar (c : Char) : Bool := !(c = '&' || isWsChar c)

/-- Try one alternation branch at the position right after a `?`/`&`:
the name (case-insensitively), `=`, then a non-empty greedy run of
characters outside `[&\s]`.  Returns the name as written in the input and
the remainder after the matched value. -/
def tryParamAlt (name : List Char) (rest : List Char) : Option (List Char × List Char) :=
  if headMatchesCI (lcList name ++ ['=']) rest then
    let matchedName := rest.take name.length
    let afterEq := rest.drop (name.length + 1)
    let v := afterEq.takeWhile isValueChar
    if v.isEmpty then none
    else some (matchedName, afterEq.drop v.length)
  else none

def matchCredParam : List String → List Char → Option (List Char × List Char)
  | [], _ => none
  | n :: ns, rest =>
    match tryParamAlt n.data rest with
    | some r => some r
    | none => matchCredParam ns rest

/-- Left-to-right global replacement; `fuel` bounds the number of steps
(each step consumes at least one character, so `fuel = length` suffices and
the fuel-exhausted branch is unreachable). -/
def sanitizeUrlChars : Nat → List Char → List Char
  | 0, s => s
  | _ + 1, [] => []
  | fuel + 1, c :: cs =>
    if c = '?' || c = '&' then
      match matchCredParam credParamNames cs with
      | some (name, rest) =>
        c :: (name ++ ('=' :: '*' :: '*' :: '*' :: sanitizeUrlChars fuel rest))
      | none => c :: sanitizeUrlChars fuel cs
    else c :: sanitizeUrlChars fuel cs

/-- `ModelAPIError.sanitizeUrlInString`. -/
def sanitizeUrlInString (text : String) : String :=
  ⟨sanitizeUrlChars text.data.length text.data⟩

/-- Detail values as the sanitizer distinguishes them: strings, arrays,
plain objects, and primitives left unchanged. -/
inductive DetailValue where
  | str (s : String)
  | num (n : Int)
  | boolV (b : Bool)
  | null
  | arr (items : List DetailValue)
  | obj (fields : List (String × DetailValue))

/-- The index keys `"0"`, `"1"`, ... produced by a `for..in` loop over an
array of length `n`. -/
def indexKeys (n : Nat) : List String := (List.range n).map (fun i => toString i)

mutual

/-- Branching applied by `ModelAPIError.sanitizeDetails` to the value of
an object field: strings are URL-sanitized, arrays are mapped element-wise
with the array-item branching, nested objects recurse, primitives pass
through unchanged. -/
def sanitizeValue : DetailValue → DetailValue
  | .str s => .str (sanitizeUrlInString s)
  | .num n => .num n
  | .boolV b => .boolV b
  | .null => .null
  | .arr items => .arr (sanitizeItems items)
  | .obj fields => .obj (sanitizeFields fields)

def sanitizeItems : List DetailValue → List DetailValue
  | [] => []
  | it :: rest => sanitizeItem it :: sanitizeItems rest

/-- Branching applied to an array element: strings are URL-sanitized;
objects recurse; a nested array is itself passed to `sanitizeDetails`,
whose `for..in` loop over its indices turns it into an object keyed
`"0"`, `"1"`, ... with each element sanitized by the field-value
branching (faithful to the source); primitives pass through. -/
def sanitizeItem : DetailValue → DetailValue
  | .str s => .str (sanitizeUrlInString s)
  | .obj fields => .obj (sanitizeFields fields)
  | .arr items => .obj ((indexKeys items.length).zip (sanitizeValues items))
  | v => v

def sanitizeValues : List DetailValue → List DetailValue
  | [] => []
  | v :: rest => sanitizeValue v :: sanitizeValues rest

def sanitizeFields : List (String × DetailValue) → List (String × DetailValue)
  | [] => []
  | p :: rest => (p.fst, sanitizeValue p.snd) :: sanitizeFields rest

end

/-- `ModelAPIError.sanitizeDetails`. -/
def sanitizeDetails (fields : List (String × DetailValue)) : List (String × DetailValue) :=
  sanitizeFields fields

mutual

/-- All string leaves of a detail value, in order (used to state that
sanitization URL-sanitizes every string anywhere in a details map). -/
def dvStrings : DetailValue → List String
  | .str s => [s]
  | .num _ => []
  | .boolV _ => []
  | .null => []
  | .arr items => dvStringsList items
  | .obj fields => dvStringsFields fields

def dvStringsList : List DetailValue → List String
  | [] => []
  | v :: rest => dvStrings v ++ dvStringsList rest

def dvStringsFields : List (String × DetailValue) → List String
  | [] => []
  | p :: rest => dvStrings p.snd ++ dvStringsFields rest

end

/-! ## Error taxonomy (`errors.js` in `image-input.ts`) -/

inductive VisionErrorCode where
  | invalidInput
  | modelConfigErr
  | imageLoad
  | modelAPI
  | timeoutErr
  | unknownErr
deriving DecidableEq, Repr

/-- Errors as thrown by the code: `VisionMCPError` subclasses carry a code,
a message (already carrying the subclass prefix), a details map and an
optional cause; `typeError` models the platform `TypeError` from `new URL`;
`nodeFsError` models a Node `fs` error with its `code` property. -/
inductive JsError where
  | vision (code : VisionErrorCode) (message : String)
      (details : List (String × DetailValue)) (cause : Option JsError)
  | typeError (message : String)
  | nodeFsError (code : String)

/-- `InvalidInputError`: prefixes the message with `Invalid input: `. -/
def invalidInputError (msg : String) (details : List (String × DetailValue))
    (cause : Option JsError) : JsError :=
  .vision .invalidInput ("Invalid input: " ++ msg) details cause

/-- `ModelConfigError`: prefixes with `Model configuration error: `. -/
def modelConfigError (msg : String) : JsError :=
  .vision .modelConfigErr ("Model configuration error: " ++ msg) [] none

/-- `ImageLoadError`: prefixes with `Failed to load image: `. -/
def imageLoadError (msg : String) (details : List (String × DetailValue))
    (cause : Option JsError) : JsError :=
  .vision .imageLoad ("Failed to load image: " ++ msg) details cause

/-- `ModelAPIError`: prefixes with `Model API error: ` and passes the
details through `sanitizeDetails`. -/
def modelAPIErrorMk (msg : String) (details : List (String × DetailValue))
    (cause : Option JsError) : JsError :=
  .vision .modelAPI ("Model API error: " ++ msg) (sanitizeDetails details) cause

/-- `TimeoutError`: prefixes with `Request timeout: `. -/
def timeoutErrorMk (msg : String) : JsError :=
  .vision .timeoutErr ("Request timeout: " ++ msg) [] none

def errCode : JsError → Option VisionErrorCode
  | .vision c _ _ _ => some c
  | _ => none

def errMessage : JsError → String
  | .vision _ m _ _ => m
  | .typeError m => m
  | .nodeFsError c => c

def errDetails : JsError → List (String × DetailValue)
  | .vision _ _ d _ => d
  | _ => []

def errCause : JsError → Option JsError
  | .vision _ _ _ c => c
  | _ => none

/-! ## Base64 (Node `Buffer.prototype.toString('base64')`)

Standard base64 with `+`/`/` and `=` padding, as Node produces for a byte
buffer.  `b64DecodeBytes` is the inverse used to state the round-trip
property of claim C8. -/

def b64Char (i : Nat) : Char :=
  if i < 26 then Char.ofNat ('A'.toNat + i)
  else if i < 52 then Char.ofNat ('a'.toNat + (i - 26))
  else if i < 62 then Char.ofNat ('0'.toNat + (i - 52))
  else if i = 62 then '+'
  else '/'

def b64Val (c : Char) : Option Nat :=
  let n := c.toNat
  if 65 ≤ n && n ≤ 90 then some (n - 65)
  else if 97 ≤ n && n ≤ 122 then some (n - 97 + 26)
  else if 48 ≤ n && n ≤ 57 then some (n - 48 + 52)
  else if c = '+' then some 62
  else if c = '/' then some 63
  else none

def b64EncodeBytes : List Nat → List Char
  | [] => []
  | [a] => [b64Char (a / 4), b64Char (a % 4 * 16), '=', '=']
  | [a, b] => [b64Char (a / 4), b64Char (a % 4 * 16 + b / 16), b64Char (b % 16 * 4), '=']
  | a :: b :: c :: rest =>
    b64Char (a / 4) :: b64Char (a % 4 * 16 + b / 16) ::
      b64Char (b % 16 * 4 + c / 64) :: b64Char (c % 64) :: b64EncodeBytes rest

def b64DecodeBytes : List Char → Option (List Nat)
  | [] => some []
  | c0 :: c1 :: c2 :: c3 :: rest =>
    match b64Val c0, b64Val c1 with
    | some v0, some v1 =>
      if c2 = '=' && c3 = '=' && rest.isEmpty then
        some [v0 * 4 + v1 / 16]
      else
        match b64Val c2 with
        | some v2 =>
          if c3 = '=' && rest.isEmpty then
            some [v0 * 4 + v1 / 16, v1 % 16 * 16 + v2 / 4]
          else
            match b64Val c3, b64DecodeBytes rest with
            | some v3, some bs =>
              some ((v0 * 4 + v1 / 16) :: (v1 % 16 * 16 + v2 / 4) :: (v2 % 4 * 64 + v3) :: bs)
            | _, _ => none
        | none => none
    | _, _ => none
  | _ => none

/-! ## Image input normalization (`image-input.ts`) -/

structure NormalizedImageInput where
  type : ImageInputType
  originalInput : String
  dataUrl : String
  mimeType : String
deriving DecidableEq, Repr

/-- Outcome of `fs/promises.readFile` on a path. -/
inductive FsRead where
  | found (bytes : List Nat)
  | notFound
  | permissionDenied

/-- The regex `^data:(image\/[^;]+);base64,` of `getMimeTypeFromDataUrl`
(case-insensitive), returning the captured MIME type lower-cased. -/
def dataUrlMimeRaw (input : String) : Option String :=
  if headMatchesCI "data:image/".data input.data then
    let rest := input.data.drop 11
    let m := rest.takeWhile (· ≠ ';')
    if m.isEmpty then none
    else if headMatchesCI ";base64,".data (rest.drop m.length) then
      some ⟨lcList ("image/".data ++ m)⟩
    else none
  else none

/-- `VISION_STRICT_URL_VALIDATION !== 'false'`: strict validation is on
for every environment value except the literal string `false` (and in
particular when the variable is unset — the default). -/
def strictValidationFromEnv : Option String → Bool
  | some s => s ≠ "false"
  | none => true

/-- `normalizeBase64Input`.  Every error thrown in its `try` block —
including the `InvalidInputError`s it constructs itself — is caught and
re-wrapped as `ImageLoadError('Invalid base64 data URL', { input }, error)`
by its own `catch`. -/
def normalizeBase64Input (input : String) : Except JsError NormalizedImageInput :=
  let wrap : JsError → JsError := fun e =>
    imageLoadError "Invalid base64 data URL" [("input", .str input)] (some e)
  if !(jsIncludes input ",") || countChar ',' input ≠ 1 then
    .error (wrap (invalidInputError
      "Invalid data URL format. Expected: data:image/*;base64,DATA" [] none))
  else
    match dataUrlMimeRaw input with
    | none => .error (wrap (invalidInputError
        "Invalid data URL format. Expected: data:image/*;base64,..."
        [("dataUrl", .str input)] none))
    | some m =>
      if !(SUPPORTED_MIME_TYPES.contains m) then
        .error (wrap (invalidInputError ("Unsupported image MIME type: " ++ m)
          [("supportedTypes", .arr (SUPPORTED_MIME_TYPES.map .str))] none))
      else
        let dataPart : String := ⟨((splitAtChar ',' input.data).map Prod.snd).getD []⟩
        if dataPart = "" then
          .error (wrap (invalidInputError "No base64 data found in data URL" [] none))
        else .ok ⟨.base64, input, input, m⟩

/-- `normalizeUrlInput`.  The strict-validation `InvalidInputError` is not
a `TypeError`, so the function's own `catch` re-wraps it as
`ImageLoadError('Failed to process URL input', { input }, error)`; only a
URL-parse failure (a `TypeError`) surfaces as `InvalidInputError`. -/
def normalizeUrlInput (strictValidation : Bool) (input : String) :
    Except JsError NormalizedImageInput :=
  match parseHttpUrl input with
  | none =>
    .error (invalidInputError "Invalid URL format" [("input", .str input)]
      (some (.typeError "Invalid URL")))
  | some u =>
    if !(jsStartsWith u.protocol "http") then
      .error (imageLoadError "Failed to process URL input" [("input", .str input)]
        (some (invalidInputError "Only HTTP/HTTPS URLs are supported"
          [("protocol", .str u.protocol)] none)))
    else if !(isImageUrl input) && strictValidation then
      .error (imageLoadError "Failed to process URL input" [("input", .str input)]
        (some (invalidInputError
          ("URL does not have a supported image extension (allowed: " ++
            String.intercalate ", " extToMimeKeys ++ ")")
          [("url", .str input)] none)))
    else .ok ⟨.url, input, input, "image/*"⟩

/-- `normalizeLocalInput`.  Its `catch` keeps distinct messages for the
Node `ENOENT`/`EACCES` error codes; every other error thrown inside the
`try` — the `File is empty` `ImageLoadError` and the `InvalidInputError`
from `getMimeTypeFromFileName` — carries no such code and is re-wrapped as
`ImageLoadError('Failed to read local file', { path }, error)`. -/
def normalizeLocalInput (fs : String → FsRead) (input : String) :
    Except JsError NormalizedImageInput :=
  match fs input with
  | .notFound =>
    .error (imageLoadError "File not found" [("path", .str input)]
      (some (.nodeFsError "ENOENT")))
  | .permissionDenied =>
    .error (imageLoadError "Permission denied reading file" [("path", .str input)]
      (some (.nodeFsError "EACCES")))
  | .found bytes =>
    if bytes.isEmpty then
      .error (imageLoadError "Failed to read local file" [("path", .str input)]
        (some (imageLoadError "File is empty" [("path", .str input)] none)))
    else
      match getMimeTypeFromFileName input with
      | none =>
        .error (imageLoadError "Failed to read local file" [("path", .str input)]
          (some (invalidInputError ("Unsupported file extension: " ++ jsExtOf input)
            [("filename", .str input),
             ("supportedExtensions", .arr (extToMimeKeys.map .str))] none)))
      | some m =>
        .ok ⟨.local, input, "data:" ++ m ++ ";base64," ++ ⟨b64EncodeBytes bytes⟩, m⟩

/-- The error of a failed computation, if any. -/
def theError {α : Type} : Except JsError α → Option JsError
  | .error e => some e
  | .ok _ => none

/-- `normalizeImageInput`: classify, dispatch; its own `catch` rethrows
`VisionMCPError` unchanged, and every error produced by the three branch
functions is a `VisionMCPError`, so the `catch` is the identity here. -/
def normalizeImageInput (strictValidation : Bool) (fs : String → FsRead)
    (input : String) : Except JsError NormalizedImageInput :=
  match detectInputType input with
  | .base64 => normalizeBase64Input input
  | .url => normalizeUrlInput strictValidation input
  | .local => normalizeLocalInput fs input

/-! ## Thinking-content filter (`src/unnamed/part_000`)

`THINKING_PATTERNS` is a list of global, case-insensitive regexes applied
in order, each re-applied until the string stops shrinking.  Each pattern
is embedded as a left-to-right scanner with the exact semantics of the
regex on the source's patterns; `fuel` arguments bound the scan length
(every step consumes at least one character, so `length + 1` suffices). -/

/-- Drop everything through the first (case-insensitive) occurrence of the
non-empty tag `close`; `none` when `close` does not occur (the lazy body
`[\s\S]*?` then has no closing tag and the regex fails at this start). -/
def dropThroughCI (close : List Char) : List Char → Option (List Char)
  | [] => none
  | c :: cs =>
    if headMatchesCI close (c :: cs) then some ((c :: cs).drop close.length)
    else dropThroughCI close cs

/-- One global-replace pass of a block pattern `open..[\s\S]*?..close`
with the opening alternatives `opens` (all alternatives here are mutually
exclusive at any position, so ordered alternation reduces to this). -/
def removeBlocksPass (opens : List (List Char)) (close : List Char) :
    Nat → List Char → List Char
  | 0, s => s
  | _ + 1, [] => []
  | fuel + 1, c :: cs =>
    match opens.findSome? (fun o => if headMatchesCI o (c :: cs) then some o else none) with
    | some o =>
      match dropThroughCI close ((c :: cs).drop o.length) with
      | some rest => removeBlocksPass opens close fuel rest
      | none => c :: removeBlocksPass opens close fuel cs
    | none => c :: removeBlocksPass opens close fuel cs

/-- One global-replace pass deleting literal alternatives (pattern 6,
`(<thinking>|<\/thinking>|<<analysis>>)`), case-insensitively. -/
def removeLiteralsPass (lits : List (List Char)) : Nat → List Char → List Char
  | 0, s => s
  | _ + 1, [] => []
  | fuel + 1, c :: cs =>
    match lits.findSome? (fun l => if headMatchesCI l (c :: cs) then some l else none) with
    | some l => removeLiteralsPass lits fuel ((c :: cs).drop l.length)
    | none => c :: removeLiteralsPass lits fuel cs

def lineKeywords : List (List Char) :=
  ["reasoning:".data, "thoughts:".data, "analysis:".data]

/-- One global-replace pass of `/^\s*(Reasoning|Thoughts|Analysis):.*$/gim`.
An anchor position is the string start or any position right after `\n`.
The greedy `\s*` may span line breaks; since no whitespace character can
begin a keyword, the whitespace run before the keyword is exactly the
maximal one.  `.*$` consumes to the next `\n` (exclusive) or the end.  The
match never ends in `\n`, so the continuation position is never an anchor. -/
def reasoningLinePass : Nat → Bool → List Char → List Char
  | 0, _, s => s
  | _ + 1, _, [] => []
  | fuel + 1, atStart, c :: cs =>
    if atStart then
      let ws := (c :: cs).takeWhile isWsChar
      let rest := (c :: cs).drop ws.length
      if lineKeywords.any (fun k => headMatchesCI k rest) then
        reasoningLinePass fuel false (rest.dropWhile (· ≠ '\n'))
      else
        c :: reasoningLinePass fuel (c = '\n') cs
    else
      c :: reasoningLinePass fuel (c = '\n') cs

/-- Largest index of `'\n'` in `run` (only used when one exists). -/
def lastNewlineIdx (run : List Char) : Nat :=
  run.length - 1 - run.reverse.findIdx (· = '\n')

/-- The final single pass `replace(/\n\s*\n\s*\n/g, '\n\n')`.  At a `\n`
whose following maximal whitespace run contains at least two further
`\n`, the greedy match extends through the last `\n` of that run and is
replaced by a blank line. -/
def collapseNewlinesPass : Nat → List Char → List Char
  | 0, s => s
  | _ + 1, [] => []
  | fuel + 1, c :: cs =>
    if c = '\n' then
      let run := cs.takeWhile isWsChar
      if 2 ≤ run.countP (· = '\n') then
        '\n' :: '\n' :: collapseNewlinesPass fuel (cs.drop (lastNewlineIdx run + 1))
      else c :: collapseNewlinesPass fuel cs
    else c :: collapseNewlinesPass fuel cs

/-- JS `String.prototype.trim` (whitespace from both ends). -/
def jsTrim (s : List Char) : List Char :=
  ((s.dropWhile isWsChar).reverse.dropWhile isWsChar).reverse

/-- Re-apply a shrinking pass until the length stops decreasing, as the
`while (cleaned.length < beforeLength)` loop does for each pattern. -/
def applyFix (f : List Char → List Char) : Nat → List Char → List Char
  | 0, s => s
  | fuel + 1, s =>
    let s2 := f s
    if s2.length < s.length then applyFix f fuel s2 else s2

def applyPattern (f : List Char → List Char) (s : List Char) : List Char :=
  applyFix f (s.length + 1) s

def passThinkingTags (s : List Char) : List Char :=
  removeBlocksPass ["<thinking>".data] "</thinking>".data (s.length + 1) s

def passAnalysisTags (s : List Char) : List Char :=
  removeBlocksPass ["<<analysis>>".data] "<<analysis>>".data (s.length + 1) s

def passReasoningLines (s : List Char) : List Char :=
  reasoningLinePass (s.length + 1) true s

def passFencedBlocks (s : List Char) : List Char :=
  removeBlocksPass ["```thinking".data, "```reasoning".data] "```".data (s.length + 1) s

def passInlineMarkers (s : List Char) : List Char :=
  removeBlocksPass ["[thinking]".data] "[/thinking]".data (s.length + 1) s

def passLeftoverMarkers (s : List Char) : List Char :=
  removeLiteralsPass ["<thinking>".data, "</thinking>".data, "<<analysis>>".data]
    (s.length + 1) s

/-- `stripThinkingPatterns`: the six patterns in order, each to a
fixpoint, then `trim` and the blank-line collapse. -/
def stripThinkingPatterns (text : String) : String :=
  if text = "" then ""
  else
    let s1 := applyPattern passThinkingTags text.data
    let s2 := applyPattern passAnalysisTags s1
    let s3 := applyPattern passReasoningLines s2
    let s4 := applyPattern passFencedBlocks s3
    let s5 := applyPattern passInlineMarkers s4
    let s6 := applyPattern passLeftoverMarkers s5
    let t := jsTrim s6
    ⟨collapseNewlinesPass (t.length + 1) t⟩

/-- `ModelResponseEnvelope` from `thinking-extractors.ts`; the
`rawResponse` and `usage` fields are never read by `stripThinking` and are
omitted.  Absent optional fields are `none`; JS truthiness also treats an
empty string as absent (`truthyStr`). -/
structure ModelResponseEnvelope where
  content : String
  reasoning : Option String := none
  thinking : Option String := none

def truthyStr : Option String → Bool
  | some s => s ≠ ""
  | none => false

/-- `stripThinking`: strip patterns from `content`; explicit
`reasoning`/`thinking` fields are only logged; fail-closed rule: a
post-strip content shorter than 10 characters together with a present
reasoning/thinking field yields the empty string. -/
def stripThinking (e : ModelResponseEnvelope) : String :=
  let cleaned := stripThinkingPatterns e.content
  if cleaned.length < 10 && (truthyStr e.reasoning || truthyStr e.thinking) then ""
  else cleaned

/-! ## Retry/timeout engine (`base-adapter.ts`, `withRetry`)

The wrapped operation is modelled as a function from the 0-based attempt
index to that attempt's outcome.  `withRetry` returns the final outcome
together with the number of attempts actually executed and the list of
backoff delays awaited, in order. -/

/-- Errors as `withRetry` distinguishes them: an `AbortError` (the attempt
was cancelled by its timeout), a `ModelAPIError` carrying a details map
(inspected for `details.status`), or any other error. -/
inductive AdapterError where
  | abortError
  | apiError (details : List (String × DetailValue)) (message : String)
  | generic (message : String)

inductive AttemptResult (α : Type) where
  | ok (v : α)
  | err (e : AdapterError)

/-- `NON_RETRYABLE_STATUS_CODES`. -/
def nonRetryableStatusCodes : List Int := [400, 401, 403, 404]

/-- `(error.details as any)?.status`, with the JS truthiness guard
`status && ...` (a `0` status is falsy and treated as absent). -/
def detailsStatus (ds : List (String × DetailValue)) : Option Int :=
  match (ds.find? (fun p => p.fst = "status")).map Prod.snd with
  | some (.num n) => if n = 0 then none else some n
  | _ => none

/-- The non-retryable check of `withRetry`, applied to the caught error. -/
def isNonRetryable : AdapterError → Bool
  | .apiError ds _ =>
    match detailsStatus ds with
    | some n => nonRetryableStatusCodes.contains n
    | none => false
  | _ => false

def adapterErrMessage : AdapterError → String
  | .abortError => "AbortError"
  | .apiError _ m => m
  | .generic m => m

/-- The `errorDetails` aggregation before the final `ModelAPIError`: a
`VisionMCPError` keeps its details, extended with `lastError`; any other
error contributes only `lastError`. -/
def aggregateDetails : AdapterError → List (String × DetailValue)
  | .apiError ds m => ds ++ [("lastError", .str m)]
  | e => [("lastError", .str (adapterErrMessage e))]

/-- Backoff before the next attempt: `Math.min(1000 * Math.pow(2, attempt), 5000)`. -/
def backoffDelay (attempt : Nat) : Nat := min (1000 * 2 ^ attempt) 5000

inductive RetryOutcome (α : Type) where
  | ok (v : α)
  | timeoutFailure (e : JsError)
  | nonRetryable (e : AdapterError)
  | exhausted (e : JsError)

/-- The loop body of `withRetry` from attempt index `attempt` with
`remaining` loop iterations still allowed (`remaining = maxRetries + 1 -
attempt` at every call; the `0` case is unreachable).  Returns the
outcome, the number of attempts executed from here and the backoff delays
awaited. -/
def withRetryFrom {α : Type} (op : Nat → AttemptResult α) (timeoutMs maxRetries : Nat) :
    Nat → Nat → RetryOutcome α × Nat × List Nat
  | _, 0 => (.exhausted (modelAPIErrorMk "unreachable" [] none), 0, [])
  | attempt, remaining + 1 =>
    match op attempt with
    | .ok v => (.ok v, 1, [])
    | .err e =>
      match e with
      | .abortError =>
        (.timeoutFailure (timeoutErrorMk ("Request timed out after " ++ toString timeoutMs ++ "ms")),
         1, [])
      | _ =>
        if isNonRetryable e then (.nonRetryable e, 1, [])
        else if remaining = 0 then
          (.exhausted (modelAPIErrorMk
              ("Failed after " ++ toString (maxRetries + 1) ++ " attempts")
              (aggregateDetails e) none),
           1, [])
        else
          let rest := withRetryFrom op timeoutMs maxRetries (attempt + 1) remaining
          (rest.1, rest.2.1 + 1, backoffDelay attempt :: rest.2.2)

/-- `withRetry` with resolved `timeout` and `maxRetries` (the code resolves
them as `config.maxRetries || 2` and `config.timeout || 60000`). -/
def withRetry {α : Type} (op : Nat → AttemptResult α) (timeoutMs maxRetries : Nat) :
    RetryOutcome α × Nat × List Nat :=
  withRetryFrom op timeoutMs maxRetries 0 (maxRetries + 1)

/-- An attempt outcome that the engine retries: a failure that is neither
an abort (timeout) nor a non-retryable-status `ModelAPIError`. -/
def retryableFailure {α : Type} : AttemptResult α → Bool
  | .err .abortError => false
  | .err e => !isNonRetryable e
  | .ok _ => false

/-! ## Provider registry and configuration loading
(`provider-registry.ts`, `model-config.ts`)

Adapter factories and thinking extractors are not read by
`loadModelConfig` and are omitted from the embedded `ProviderDefinition`.
The six built-in providers are registered with their defaults and API-key
validators exactly as in `provider-registry.ts`. -/

structure ModelDefaults where
  baseUrl : String
  modelName : String
  timeout : Nat
  maxRetries : Nat
deriving DecidableEq, Repr

/-- Result of `validateApiKey`: the source validators return `true` or a
warning string. -/
inductive KeyValidation where
  | ok
  | warn (msg : String)
deriving DecidableEq, Repr

structure ProviderDefinition where
  type : String
  displayName : String
  defaults : ModelDefaults
  validateApiKey : Option (String → KeyValidation)
  enableThinking : Bool

def glmValidateKey (apiKey : String) : KeyValidation :=
  if !(jsIncludes apiKey ".") then .warn "GLM API Key should contain a dot (.)"
  else .ok

def siliconflowValidateKey (apiKey : String) : KeyValidation :=
  if !(jsStartsWith apiKey "sk-") then .warn "SiliconFlow API Key should start with \"sk-\""
  else .ok

def modelscopeValidateKey (apiKey : String) : KeyValidation :=
  if !(jsStartsWith apiKey "ms-") then .warn "ModelScope API Key should start with \"ms-\""
  else .ok

def openaiValidateKey (apiKey : String) : KeyValidation :=
  if !(jsStartsWith apiKey "sk-") then .warn "OpenAI API Key should start with \"sk-\""
  else .ok

def claudeValidateKey (apiKey : String) : KeyValidation :=
  if !(jsStartsWith apiKey "sk-ant-") then
    .warn "Claude API Key typically starts with \"sk-ant-\". Proxy providers may use different formats."
  else .ok

def geminiValidateKey (apiKey : String) : KeyValidation :=
  if apiKey.length < 10 then .warn "Gemini API Key should be at least 10 characters"
  else .ok

def glmProviderDef : ProviderDefinition :=
  { type := "glm", displayName := "GLM-4.6V",
    defaults := { baseUrl := "https://open.bigmodel.cn/api/paas/v4",
                  modelName := "glm-4.6v", timeout := 60000, maxRetries := 2 },
    validateApiKey := some glmValidateKey, enableThinking := true }

def siliconflowProviderDef : ProviderDefinition :=
  { type := "siliconflow", displayName := "SiliconFlow",
    defaults := { baseUrl := "https://api.siliconflow.cn/v1",
                  modelName := "Qwen/Qwen2-VL-72B-Instruct", timeout := 60000, maxRetries := 2 },
    validateApiKey := some siliconflowValidateKey, enableThinking := false }

def modelscopeProviderDef : ProviderDefinition :=
  { type := "modelscope", displayName := "ModelScope API-Inference",
    defaults := { baseUrl := "https://api-inference.modelscope.cn/v1",
                  modelName := "ZhipuAI/GLM-4.6V", timeout := 60000, maxRetries := 2 },
    validateApiKey := some modelscopeValidateKey, enableThinking := false }

def openaiProviderDef : ProviderDefinition :=
  { type := "openai", displayName := "OpenAI",
    defaults := { baseUrl := "https://api.openai.com/v1",
                  modelName := "gpt-4o", timeout := 60000, maxRetries := 2 },
    validateApiKey := some openaiValidateKey, enableThinking := false }

def claudeProviderDef : ProviderDefinition :=
  { type := "claude", displayName := "Anthropic Claude",
    defaults := { baseUrl := "https://api.anthropic.com",
                  modelName := "claude-3-5-sonnet-20241022", timeout := 60000, maxRetries := 2 },
    validateApiKey := some claudeValidateKey, enableThinking := false }

def geminiProviderDef : ProviderDefinition :=
  { type := "gemini", displayName := "Google Gemini",
    defaults := { baseUrl := "https://generativelanguage.googleapis.com",
                  modelName := "gemini-2.0-flash-exp", timeout := 60000, maxRetries := 2 },
    validateApiKey := some geminiValidateKey, enableThinking := false }

/-- The registry contents after the six built-in registrations, in
registration order (the `Map` preserves insertion order). -/
def registryProviders : List ProviderDefinition :=
  [glmProviderDef, siliconflowProviderDef, modelscopeProviderDef,
   openaiProviderDef, claudeProviderDef, geminiProviderDef]

/-- `registry.get(type)`. -/
def registryGet (t : String) : Option ProviderDefinition :=
  registryProviders.find? (fun p => p.type = t)

/-- The environment variables `loadModelConfig` reads. -/
structure Env where
  VISION_MODEL_TYPE : Option String := none
  VISION_MODEL_NAME : Option String := none
  VISION_API_BASE_URL : Option String := none
  VISION_API_KEY : Option String := none
  VISION_API_TIMEOUT : Option String := none
  VISION_MAX_RETRIES : Option String := none

/-- JS truthiness on an optional env string: unset and `''` are falsy. -/
def truthyEnv : Option String → Option String
  | some s => if s = "" then none else some s
  | none => none

/-- `parseInt(s, 10)`: optional whitespace and sign, then leading decimal
digits; no digits yields `NaN`, modelled as `none`. -/
def parseIntJs (s : String) : Option Int :=
  let t := s.data.dropWhile isWsChar
  let (sign, t) : Int × List Char :=
    match t with
    | '-' :: r => (-1, r)
    | '+' :: r => (1, r)
    | r => (1, r)
  let digits := t.takeWhile (fun c => '0' ≤ c && c ≤ '9')
  if digits.isEmpty then none
  else some (sign * (digits.foldl (fun acc c => acc * 10 + (c.toNat - 48)) 0 : Nat))

/-- `baseUrl.replace(/\/$/, '')`: strip one trailing slash. -/
def stripTrailingSlash (s : String) : String :=
  match s.data.reverse with
  | '/' :: rest => ⟨rest.reverse⟩
  | _ => s

/-- `ModelConfig` as built by `loadModelConfig`; `timeout`/`maxRetries`
are `none` when `parseInt` produced `NaN`. -/
structure ModelConfig where
  type : String
  name : String
  baseUrl : String
  apiKey : String
  timeout : Option Int
  maxRetries : Option Int
  thinkingEnabled : Bool
deriving DecidableEq, Repr

/-- `loadModelConfig`: resolve the provider, apply env overrides over its
defaults, check the key's presence; a key-format validator returning a
warning string is only logged (`logger.warn`) and never fails the load. -/
def loadModelConfig (env : Env) : Except JsError ModelConfig :=
  match truthyEnv env.VISION_MODEL_TYPE with
  | none => .error (modelConfigError "Missing VISION_MODEL_TYPE environment variable")
  | some t =>
    match registryGet t with
    | none =>
      .error (modelConfigError ("Unsupported model type: " ++ t ++ ". Supported types: " ++
        String.intercalate ", " (registryProviders.map (fun p => p.type))))
    | some provider =>
      let name := (truthyEnv env.VISION_MODEL_NAME).getD provider.defaults.modelName
      let baseUrl := (truthyEnv env.VISION_API_BASE_URL).getD provider.defaults.baseUrl
      match truthyEnv env.VISION_API_KEY with
      | none => .error (modelConfigError "Missing VISION_API_KEY environment variable")
      | some apiKey =>
        let timeout := match truthyEnv env.VISION_API_TIMEOUT with
          | some s => parseIntJs s
          | none => some (provider.defaults.timeout : Int)
        let maxRetries := match truthyEnv env.VISION_MAX_RETRIES with
          | some s => parseIntJs s
          | none => some (provider.defaults.maxRetries : Int)
        .ok { type := t, name := name, baseUrl := stripTrailingSlash baseUrl,
              apiKey := apiKey, timeout := timeout, maxRetries := maxRetries,
              thinkingEnabled := provider.enableThinking }

/-- The code of the error a computation failed with (`none` on success). -/
def topErrCode {α : Type} : Except JsError α → Option VisionErrorCode
  | .error e => errCode e
  | .ok _ => none

/-! ## Claim theorems -/

/-- C9: every input string that does not start with `http://` or
`https://` and does not match the data-URL pattern (`data:image/` prefix
together with a `;base64,` occurrence) classifies as LOCAL. -/
theorem C9_detect_local : ∀ (input : String),
    jsStartsWith input "http://" = false →
    jsStartsWith input "https://" = false →
    (jsStartsWith input "data:image/" && jsIncludes input ";base64,") = false →
    detectInputType input = .local := by
  intro input h1 h2 h3
  unfold detectInputType
  rw [h3, h1, h2]
  rfl

/-- Witness for C9 at the concrete input `"foo/bar.png"`. -/
theorem C9_detect_local_witness : detectInputType "foo/bar.png" = .local :=
  C9_detect_local "foo/bar.png" rfl rfl rfl

/-- C10: whenever the selected provider's key-format validator returns a
warning string for the configured API key, `loadModelConfig` still
succeeds and returns a complete `ModelConfig` carrying that key (the
validation result is only logged). -/
theorem C10_key_warning_not_fatal : ∀ (env : Env) (t k : String)
    (p : ProviderDefinition) (f : String → KeyValidation) (msg : String),
    truthyEnv env.VISION_MODEL_TYPE = some t →
    registryGet t = some p →
    truthyEnv env.VISION_API_KEY = some k →
    p.validateApiKey = some f →
    f k = .warn msg →
    ∃ cfg : ModelConfig, loadModelConfig env = .ok cfg ∧ cfg.apiKey = k ∧
      cfg.type = t ∧ cfg.thinkingEnabled = p.enableThinking := by
  intro env t k p f msg ht hp hk _hv _hw
  simp only [loadModelConfig, ht, hp, hk]
  exact ⟨_, rfl, rfl, rfl, rfl⟩

/-- Witness for C10: the GLM provider with a key lacking a dot; its
validator returns a warning, yet loading succeeds with that key. -/
theorem C10_key_warning_not_fatal_witness :
    ∃ cfg : ModelConfig,
      loadModelConfig { VISION_MODEL_TYPE := some "glm", VISION_API_KEY := some "nodotkey" } = .ok cfg ∧
      cfg.apiKey = "nodotkey" ∧ cfg.type = "glm" ∧ cfg.thinkingEnabled = glmProviderDef.enableThinking :=
  C10_key_warning_not_fatal
    { VISION_MODEL_TYPE := some "glm", VISION_API_KEY := some "nodotkey" }
    "glm" "nodotkey" glmProviderDef glmValidateKey
    "GLM API Key should contain a dot (.)" rfl rfl rfl rfl rfl

/-- C2: whenever the pattern-stripped content is shorter than 10
characters and an explicit reasoning or thinking field is present
(non-empty), `stripThinking` returns the empty string, never the
reasoning/thinking text. -/
theorem C2_fail_closed : ∀ (e : ModelResponseEnvelope),
    (stripThinkingPatterns e.content).length < 10 →
    (truthyStr e.reasoning || truthyStr e.thinking) = true →
    stripThinking e = "" := by
  intro e h hf
  simp only [stripThinking, hf, Bool.and_true, decide_eq_true h, if_true]

/-- Witness for C2 at a concrete envelope with short content and a
reasoning field present. -/
theorem C2_fail_closed_witness :
    stripThinking ⟨"short", some "why", none⟩ = "" :=
  C2_fail_closed ⟨"short", some "why", none⟩ (by decide) rfl

/-- C1 counterexample: the claim "the explicit reasoning/thinking fields
never appear as a substring of the returned text" fails at an envelope
whose content legitimately contains the same text as the reasoning field:
the returned text contains the reasoning string `"visible"`. -/
theorem C1_substring_counterexample :
    stripThinking ⟨"here is the visible answer", some "visible", none⟩ =
      "here is the visible answer" ∧
    jsIncludes "here is the visible answer" "visible" = true :=
  ⟨rfl, rfl⟩

/-- C1 (amended): filtering the content
`"<thinking>secret</thinking>visible answer"` yields exactly
`"visible answer"` and filtering a content consisting solely of a thinking
block yields `""`, whatever the explicit fields are; and the returned text
is computed from the content and the mere presence of the
reasoning/thinking fields — the reasoning/thinking text itself is never
used (though the content may coincidentally contain equal text). -/
theorem C1_thinking_filter :
    (∀ (r t : Option String),
      stripThinking ⟨"<thinking>secret</thinking>visible answer", r, t⟩ = "visible answer") ∧
    (∀ (r t : Option String),
      stripThinking ⟨"<thinking>secret</thinking>", r, t⟩ = "") ∧
    (∀ (e₁ e₂ : ModelResponseEnvelope),
      e₁.content = e₂.content →
      (truthyStr e₁.reasoning || truthyStr e₁.thinking) =
        (truthyStr e₂.reasoning || truthyStr e₂.thinking) →
      stripThinking e₁ = stripThinking e₂) := by
  refine ⟨fun r t => ?_, fun r t => ?_, fun e₁ e₂ hc hf => ?_⟩
  · have h : stripThinkingPatterns "<thinking>secret</thinking>visible answer" =
        "visible answer" := by rfl
    have h10 : decide ("visible answer".length < 10) = false := by rfl
    simp only [stripThinking, h, h10, Bool.false_and, Bool.false_eq_true, if_false]
  · have h : stripThinkingPatterns "<thinking>secret</thinking>" = "" := by rfl
    simp only [stripThinking, h]
    simp
  · simp only [stripThinking, hc, hf]

/-- Witness for C1 (amended) at concrete envelopes. -/
theorem C1_thinking_filter_witness :
    stripThinking ⟨"<thinking>secret</thinking>visible answer", some "secret", none⟩ =
      "visible answer" ∧
    stripThinking ⟨"<thinking>secret</thinking>", none, some "secret"⟩ = "" ∧
    stripThinking ⟨"same content", some "a", none⟩ = stripThinking ⟨"same content", none, some "b"⟩ :=
  ⟨C1_thinking_filter.1 (some "secret") none,
   C1_thinking_filter.2.1 none (some "secret"),
   C1_thinking_filter.2.2 ⟨"same content", some "a", none⟩ ⟨"same content", none, some "b"⟩ rfl rfl⟩

theorem headMatchesCI_refl_append : ∀ (xs ys zs : List Char), lcList xs = xs →
    headMatchesCI (xs ++ ys) (xs ++ zs) = headMatchesCI ys zs
  | [], _, _, _ => rfl
  | x :: xs, ys, zs, h => by
    simp only [lcList, List.map_cons] at h
    injection h with h1 h2
    have hrec := headMatchesCI_refl_append xs ys zs (by simpa [lcList] using h2)
    simp [headMatchesCI, List.cons_append, h1, hrec]

theorem takeWhile_append_exact (p : Char → Bool) : ∀ (v rest : List Char),
    (∀ c ∈ v, p c = true) → (∀ c, rest.head? = some c → p c = false) →
    (v ++ rest).takeWhile p = v
  | [], rest, _, hrest => by
    cases rest with
    | nil => rfl
    | cons c cs => simp [List.takeWhile_cons, hrest c rfl]
  | x :: v, rest, hv, hrest => by
    simp only [List.cons_append, List.takeWhile_cons, hv x (by simp), if_true]
    rw [takeWhile_append_exact p v rest (fun c hc => hv c (by simp [hc])) hrest]

theorem tryParamAlt_hit (name v rest : List Char) (hlc : lcList name = name)
    (hv : v ≠ []) (hval : ∀ c ∈ v, isValueChar c = true)
    (hrest : ∀ c, rest.head? = some c → isValueChar c = false) :
    tryParamAlt name (name ++ '=' :: (v ++ rest)) = some (name, rest) := by
  have hm : headMatchesCI (lcList name ++ ['=']) (name ++ '=' :: (v ++ rest)) = true := by
    rw [hlc, headMatchesCI_refl_append name ['='] ('=' :: (v ++ rest)) hlc]
    rfl
  have hsplit : name ++ '=' :: (v ++ rest) = (name ++ ['=']) ++ (v ++ rest) := by simp
  have htake : (name ++ '=' :: (v ++ rest)).take name.length = name := by
    rw [hsplit, List.append_assoc, List.take_left]
  have hdrop : (name ++ '=' :: (v ++ rest)).drop (name.length + 1) = v ++ rest := by
    rw [hsplit]
    have : (name ++ ['=']).length = name.length + 1 := by simp
    rw [← this, List.drop_left]
  have htw : (v ++ rest).takeWhile isValueChar = v :=
    takeWhile_append_exact isValueChar v rest hval hrest
  have hve : v.isEmpty = false := by cases v with
    | nil => exact absurd rfl hv
    | cons a l => rfl
  unfold tryParamAlt
  rw [hm]
  simp only [if_true, htake, hdrop, htw, hve, Bool.false_eq_true, if_false, List.drop_left]

theorem matchCredParam_hit : ∀ (n : String), n ∈ credParamNames →
    ∀ (v rest : List Char), v ≠ [] → (∀ c ∈ v, isValueChar c = true) →
    (∀ c, rest.head? = some c → isValueChar c = false) →
    matchCredParam credParamNames (n.data ++ '=' :: (v ++ rest)) = some (n.data, rest) := by
  intro n hn v rest hv hval hrest
  have hhit : ∀ (m : String), lcList m.data = m.data →
      tryParamAlt m.data (m.data ++ '=' :: (v ++ rest)) = some (m.data, rest) :=
    fun m hm => tryParamAlt_hit m.data v rest hm hv hval hrest
  have hmiss : ∀ (a m : String), headMatchesCI (lcList a.data ++ ['='])
        (m.data ++ '=' :: (v ++ rest)) = false →
      tryParamAlt a.data (m.data ++ '=' :: (v ++ rest)) = none := by
    intro a m h
    unfold tryParamAlt
    rw [h]
    rfl
  simp only [credParamNames, List.mem_cons, List.not_mem_nil, or_false] at hn
  rcases hn with rfl | rfl | rfl | rfl | rfl | rfl | rfl
  · simp only [credParamNames, matchCredParam, hhit "key" (by rfl)]
  · simp only [credParamNames, matchCredParam,
      hmiss "key" "api_key" (by rfl), hhit "api_key" (by rfl)]
  · simp only [credParamNames, matchCredParam,
      hmiss "key" "apikey" (by rfl), hmiss "api_key" "apikey" (by rfl),
      hhit "apikey" (by rfl)]
  · simp only [credParamNames, matchCredParam,
      hmiss "key" "token" (by rfl), hmiss "api_key" "token" (by rfl),
      hmiss "apikey" "token" (by rfl), hhit "token" (by rfl)]
  · simp only [credParamNames, matchCredParam,
      hmiss "key" "access_token" (by rfl), hmiss "api_key" "access_token" (by rfl),
      hmiss "apikey" "access_token" (by rfl), hmiss "token" "access_token" (by rfl),
      hhit "access_token" (by rfl)]
  · simp only [credParamNames, matchCredParam,
      hmiss "key" "api-key" (by rfl), hmiss "api_key" "api-key" (by rfl),
      hmiss "apikey" "api-key" (by rfl), hmiss "token" "api-key" (by rfl),
      hmiss "access_token" "api-key" (by rfl), hhit "api-key" (by rfl)]
  · simp only [credParamNames, matchCredParam,
      hmiss "key" "apikey" (by rfl), hmiss "api_key" "apikey" (by rfl),
      hhit "apikey" (by rfl)]

theorem sanitizeUrlChars_nomatch : ∀ (fuel : Nat) (s : List Char),
    (∀ c ∈ s, ¬(c = '?' ∨ c = '&')) → sanitizeUrlChars fuel s = s
  | 0, _, _ => rfl
  | _ + 1, [], _ => rfl
  | fuel + 1, c :: cs, h => by
    have hc : (c = '?' || c = '&') = false := by
      have := h c (by simp)
      simp only [Bool.or_eq_false_iff, decide_eq_false_iff_not]
      tauto
    simp only [sanitizeUrlChars, hc, Bool.false_eq_true, if_false]
    rw [sanitizeUrlChars_nomatch fuel cs (fun x hx => h x (by simp [hx]))]

theorem sanitizeUrlChars_append_nomatch : ∀ (pre w : List Char) (fuel : Nat),
    (∀ c ∈ pre, ¬(c = '?' ∨ c = '&')) →
    sanitizeUrlChars (pre.length + fuel) (pre ++ w) = pre ++ sanitizeUrlChars fuel w
  | [], w, fuel, _ => by simp
  | c :: pre, w, fuel, h => by
    have hc : (c = '?' || c = '&') = false := by
      have := h c (by simp)
      simp only [Bool.or_eq_false_iff, decide_eq_false_iff_not]
      tauto
    have hlen : (c :: pre).length + fuel = (pre.length + fuel) + 1 := by
      simp [List.length_cons]
      omega
    rw [hlen]
    simp only [List.cons_append, sanitizeUrlChars, hc, Bool.false_eq_true, if_false,
      List.append_eq]
    rw [sanitizeUrlChars_append_nomatch pre w fuel (fun x hx => h x (by simp [hx]))]

theorem sanitizeUrlChars_mask (n : String) (hn : n ∈ credParamNames)
    (sep : Char) (hsep : sep = '?' ∨ sep = '&') (v rest : List Char) (fuel : Nat)
    (hv : v ≠ []) (hval : ∀ c ∈ v, isValueChar c = true)
    (hrest : ∀ c, rest.head? = some c → isValueChar c = false) :
    sanitizeUrlChars (fuel + 1) (sep :: (n.data ++ '=' :: (v ++ rest))) =
      sep :: (n.data ++ ('=' :: ('*' :: '*' :: '*' :: sanitizeUrlChars fuel rest))) := by
  have hsepb : (sep = '?' || sep = '&') = true := by
    rcases hsep with rfl | rfl <;> rfl
  simp only [sanitizeUrlChars, hsepb, if_true,
    matchCredParam_hit n hn v rest hv hval hrest]

theorem sanitizeUrl_masks_value (n : String) (hn : n ∈ credParamNames)
    (sep : Char) (hsep : sep = '?' ∨ sep = '&') (pre v rest : List Char)
    (hpre : ∀ c ∈ pre, ¬(c = '?' ∨ c = '&'))
    (hv : v ≠ []) (hval : ∀ c ∈ v, isValueChar c = true)
    (hrest1 : ∀ c, rest.head? = some c → isValueChar c = false)
    (hrest2 : ∀ c ∈ rest, ¬(c = '?' ∨ c = '&')) :
    sanitizeUrlInString ⟨pre ++ sep :: (n.data ++ ('=' :: (v ++ rest)))⟩ =
      ⟨pre ++ sep :: (n.data ++ ('=' :: ('*' :: '*' :: '*' :: rest)))⟩ := by
  unfold sanitizeUrlInString
  have hlen : (pre ++ sep :: (n.data ++ ('=' :: (v ++ rest)))).length
      = pre.length + ((n.data.length + v.length + rest.length + 1) + 1) := by
    simp
    omega
  show String.mk (sanitizeUrlChars _ _) = _
  rw [hlen, sanitizeUrlChars_append_nomatch pre _ _ hpre,
    sanitizeUrlChars_mask n hn sep hsep v rest _ hv hval hrest1,
    sanitizeUrlChars_nomatch _ rest hrest2]

theorem sanitizeValues_length : ∀ (items : List DetailValue),
    (sanitizeValues items).length = items.length
  | [] => rfl
  | _ :: rest => by simp [sanitizeValues, sanitizeValues_length rest]

theorem dvStringsFields_zip : ∀ (vs : List DetailValue) (ks : List String),
    vs.length ≤ ks.length → dvStringsFields (ks.zip vs) = dvStringsList vs
  | [], ks, _ => by cases ks <;> rfl
  | v :: rest, k :: ks, h => by
    have hz : (k :: ks).zip (v :: rest) = (k, v) :: ks.zip rest := rfl
    rw [hz]
    simp only [dvStringsFields, dvStringsList]
    rw [dvStringsFields_zip rest ks (by simpa using h)]
  | _ :: _, [], h => by simp at h

theorem sanitizeFields_keys : ∀ (fields : List (String × DetailValue)),
    (sanitizeFields fields).map Prod.fst = fields.map Prod.fst
  | [] => rfl
  | p :: rest => by
    simp only [sanitizeFields, List.map_cons]
    rw [sanitizeFields_keys rest]

mutual

theorem dvStrings_sanitizeValue : ∀ (v : DetailValue),
    dvStrings (sanitizeValue v) = (dvStrings v).map sanitizeUrlInString
  | .str s => rfl
  | .num _ => rfl
  | .boolV _ => rfl
  | .null => rfl
  | .arr items => by
    simp only [sanitizeValue, dvStrings]
    exact dvStrings_sanitizeItems items
  | .obj fields => by
    simp only [sanitizeValue, dvStrings]
    exact dvStrings_sanitizeFields fields

theorem dvStrings_sanitizeItem : ∀ (v : DetailValue),
    dvStrings (sanitizeItem v) = (dvStrings v).map sanitizeUrlInString
  | .str s => rfl
  | .num _ => rfl
  | .boolV _ => rfl
  | .null => rfl
  | .obj fields => by
    simp only [sanitizeItem, dvStrings]
    exact dvStrings_sanitizeFields fields
  | .arr items => by
    simp only [sanitizeItem, dvStrings]
    rw [dvStringsFields_zip (sanitizeValues items) (indexKeys items.length)
      (by simp [sanitizeValues_length, indexKeys])]
    exact dvStrings_sanitizeValues items

theorem dvStrings_sanitizeValues : ∀ (items : List DetailValue),
    dvStringsList (sanitizeValues items) = (dvStringsList items).map sanitizeUrlInString
  | [] => rfl
  | v :: rest => by
    simp only [sanitizeValues, dvStringsList, List.map_append]
    rw [dvStrings_sanitizeValue v, dvStrings_sanitizeValues rest]

theorem dvStrings_sanitizeItems : ∀ (items : List DetailValue),
    dvStringsList (sanitizeItems items) = (dvStringsList items).map sanitizeUrlInString
  | [] => rfl
  | v :: rest => by
    simp only [sanitizeItems, dvStringsList, List.map_append]
    rw [dvStrings_sanitizeItem v, dvStrings_sanitizeItems rest]

theorem dvStrings_sanitizeFields : ∀ (fields : List (String × DetailValue)),
    dvStringsFields (sanitizeFields fields) = (dvStringsFields fields).map sanitizeUrlInString
  | [] => rfl
  | p :: rest => by
    simp only [sanitizeFields, dvStringsFields, List.map_append]
    rw [dvStrings_sanitizeValue p.snd, dvStrings_sanitizeFields rest]

end

/-- C3: sanitization replaces the value of every credential-bearing query
parameter in every string while preserving the parameter name: (1) for
every parameter name of the regex's alternation, every `?`/`&` separator,
every prefix and suffix free of further separators and every non-empty
secret value, `sanitizeUrlInString` masks exactly the value with `***`,
keeping the name in place; (2) for every details map, `sanitizeDetails`
preserves every key and passes every string leaf anywhere in the map
(recursing through nested objects and arrays) through
`sanitizeUrlInString`; (3) in particular the detail value
`"https://x/y?api_key=SECRET123"` becomes `"https://x/y?api_key=***"` —
never a value where the secret replaces the parameter name — likewise for
each of the seven alternation names and through nested objects/arrays. -/
theorem C3_sanitize_details :
    (∀ (n : String), n ∈ credParamNames →
      ∀ (sep : Char), sep = '?' ∨ sep = '&' →
      ∀ (pre v rest : List Char),
      (∀ c ∈ pre, ¬(c = '?' ∨ c = '&')) →
      v ≠ [] → (∀ c ∈ v, isValueChar c = true) →
      (∀ c, rest.head? = some c → isValueChar c = false) →
      (∀ c ∈ rest, ¬(c = '?' ∨ c = '&')) →
      sanitizeUrlInString ⟨pre ++ sep :: (n.data ++ ('=' :: (v ++ rest)))⟩ =
        ⟨pre ++ sep :: (n.data ++ ('=' :: ('*' :: '*' :: '*' :: rest)))⟩) ∧
    (∀ (fields : List (String × DetailValue)),
      (sanitizeDetails fields).map Prod.fst = fields.map Prod.fst ∧
      dvStringsFields (sanitizeDetails fields) =
        (dvStringsFields fields).map sanitizeUrlInString) ∧
    sanitizeDetails [("url", .str "https://x/y?api_key=SECRET123")] =
      [("url", .str "https://x/y?api_key=***")] ∧
    (credParamNames.all fun p =>
      sanitizeUrlInString ("https://x/y?" ++ p ++ "=SECRET123") ==
        "https://x/y?" ++ p ++ "=***") = true ∧
    sanitizeDetails
      [("ctx", .obj [("u", .str "https://a/b?token=tok123")]),
       ("list", .arr [.str "x?key=abc", .obj [("inner", .str "https://c/d?access_token=zz")], .num 7])] =
      [("ctx", .obj [("u", .str "https://a/b?token=***")]),
       ("list", .arr [.str "x?key=***", .obj [("inner", .str "https://c/d?access_token=***")], .num 7])] :=
  ⟨sanitizeUrl_masks_value,
   fun fields => ⟨sanitizeFields_keys fields, dvStrings_sanitizeFields fields⟩,
   rfl, rfl, rfl⟩

/-- Witness for C3, exercising the universal mask statement at the prefix
`https://x/y`, the name `api_key`, the secret `SECRET123` and an empty
suffix, and the structural statement at a concrete nested details map. -/
theorem C3_sanitize_details_witness :
    sanitizeUrlInString
        ⟨"https://x/y".data ++ '?' :: ("api_key".data ++ ('=' :: ("SECRET123".data ++ [])))⟩ =
      ⟨"https://x/y".data ++ '?' :: ("api_key".data ++ ('=' :: ('*' :: '*' :: '*' :: [])))⟩ ∧
    (sanitizeDetails [("a", .arr [.str "?token=s"]), ("b", .num 2)]).map Prod.fst =
      ["a", "b"] ∧
    dvStringsFields (sanitizeDetails [("a", .arr [.str "?token=s"]), ("b", .num 2)]) =
      ["?token=s"].map sanitizeUrlInString :=
  ⟨C3_sanitize_details.1 "api_key" (by decide) '?' (Or.inl rfl)
      "https://x/y".data "SECRET123".data [] (by decide) (by decide) (by decide)
      (fun c hc => by simp at hc) (by simp),
   (C3_sanitize_details.2.1 [("a", .arr [.str "?token=s"]), ("b", .num 2)]).1,
   (C3_sanitize_details.2.1 [("a", .arr [.str "?token=s"]), ("b", .num 2)]).2⟩

theorem retryableFailure_spec {α : Type} (r : AttemptResult α)
    (h : retryableFailure r = true) :
    ∃ e, r = .err e ∧ e ≠ .abortError ∧ isNonRetryable e = false := by
  cases r with
  | ok v => simp [retryableFailure] at h
  | err e =>
    cases e with
    | abortError => simp [retryableFailure] at h
    | apiError ds m => exact ⟨_, rfl, by simp, by simpa [retryableFailure] using h⟩
    | generic m => exact ⟨_, rfl, by simp, by simpa [retryableFailure] using h⟩

theorem withRetryFrom_attempts_le {α : Type} (op : Nat → AttemptResult α) (t m : Nat) :
    ∀ (remaining attempt : Nat),
      (withRetryFrom op t m attempt remaining).2.1 ≤ remaining := by
  intro remaining
  induction remaining with
  | zero => intro attempt; simp [withRetryFrom]
  | succ n ih =>
    intro attempt
    unfold withRetryFrom
    cases op attempt with
    | ok v => simp
    | err e =>
      cases e with
      | abortError => simp
      | apiError ds msg =>
        simp only
        split
        · simp
        · split
          · simp
          · have := ih (attempt + 1); simp; omega
      | generic msg =>
        simp only
        split
        · simp
        · split
          · simp
          · have := ih (attempt + 1); simp; omega

theorem withRetryFrom_skip {α : Type} (op : Nat → AttemptResult α) (t m : Nat) :
    ∀ (N attempt remaining : Nat), N < remaining →
    (∀ i, i < N → retryableFailure (op (attempt + i)) = true) →
    withRetryFrom op t m attempt remaining =
      ((withRetryFrom op t m (attempt + N) (remaining - N)).1,
       (withRetryFrom op t m (attempt + N) (remaining - N)).2.1 + N,
       ((List.range N).map (fun i => backoffDelay (attempt + i))) ++
         (withRetryFrom op t m (attempt + N) (remaining - N)).2.2) := by
  intro N
  induction N with
  | zero => intro attempt remaining _ _; simp
  | succ n ih =>
    intro attempt remaining hlt hfail
    obtain ⟨e, he, hne, hnr⟩ :=
      retryableFailure_spec (op attempt) (by simpa using hfail 0 (Nat.succ_pos n))
    obtain ⟨r, rfl⟩ : ∃ r, remaining = r + 1 := ⟨remaining - 1, by omega⟩
    have hr : n < r := by omega
    have step : withRetryFrom op t m attempt (r + 1) =
        ((withRetryFrom op t m (attempt + 1) r).1,
         (withRetryFrom op t m (attempt + 1) r).2.1 + 1,
         backoffDelay attempt :: (withRetryFrom op t m (attempt + 1) r).2.2) := by
      rw [withRetryFrom, he]
      cases e with
      | abortError => exact absurd rfl hne
      | apiError ds2 msg2 =>
        simp only [hnr, Bool.false_eq_true, if_false, if_neg (by omega : ¬ r = 0)]
      | generic msg2 =>
        simp only [hnr, Bool.false_eq_true, if_false, if_neg (by omega : ¬ r = 0)]
    rw [step, ih (attempt + 1) r hr (fun i hi => by
      have := hfail (i + 1) (by omega)
      simpa [Nat.add_assoc, Nat.add_comm 1 i] using this)]
    have hidx : attempt + 1 + n = attempt + (n + 1) := by omega
    have hrem : r - n = r + 1 - (n + 1) := by omega
    rw [hidx, hrem]
    simp only [Prod.mk.injEq]
    refine ⟨by trivial, by omega, ?_⟩
    rw [List.range_succ_eq_map, List.map_cons, List.map_map, List.cons_append]
    have hfun : ((fun i => backoffDelay (attempt + i)) ∘ Nat.succ) =
        (fun i => backoffDelay (attempt + 1 + i)) := by
      funext i; simp only [Function.comp]; congr 1; omega
    rw [hfun]
    simp

/-- C4 counterexample: an operation whose first attempt fails (cancelled
by its timeout) and whose second attempt would succeed, with
`maxRetries = 2`: per the claim the failure on a non-final attempt should
be followed by a backoff wait and the run should return the success value
`42`; instead the engine performs a single attempt, waits for no backoff
and surfaces a Timeout failure. -/
theorem C4_retry_counterexample :
    withRetry (fun i => if i = 0 then AttemptResult.err .abortError else .ok (42 : Nat)) 60000 2 =
      (.timeoutFailure (timeoutErrorMk "Request timed out after 60000ms"), 1, []) ∧
    (fun i => if i = 0 then AttemptResult.err .abortError else .ok (42 : Nat)) 1 = .ok 42 :=
  ⟨rfl, rfl⟩

/-- C4 (amended): the engine executes at most `maxRetries + 1` attempts;
a `ModelAPIError` with HTTP status 400/401/403/404 on the first attempt is
executed exactly once and rethrown; the backoff delay before attempt
`attempt + 1` is `min(1000 * 2^attempt, 5000)`; and an operation whose
first `N ≤ maxRetries` attempts fail retryably — with a failure that is
neither a timeout abort nor a non-retryable status — and whose attempt
`N + 1` succeeds returns the success value after the `N` scheduled
backoff waits. -/
theorem C4_retry_contract (α : Type) :
    (∀ (op : Nat → AttemptResult α) (t m : Nat), (withRetry op t m).2.1 ≤ m + 1) ∧
    (∀ (op : Nat → AttemptResult α) (t m : Nat) (ds : List (String × DetailValue))
       (msg : String) (s : Int),
      op 0 = .err (.apiError ds msg) → detailsStatus ds = some s →
      s ∈ nonRetryableStatusCodes →
      withRetry op t m = (.nonRetryable (.apiError ds msg), 1, [])) ∧
    (∀ a : Nat, backoffDelay a = min (1000 * 2 ^ a) 5000) ∧
    (∀ (op : Nat → AttemptResult α) (t m N : Nat) (v : α), N ≤ m →
      (∀ i, i < N → retryableFailure (op i) = true) → op N = .ok v →
      withRetry op t m = (.ok v, N + 1, (List.range N).map backoffDelay)) := by
  refine ⟨fun op t m => ?_, fun op t m ds msg s h0 hds hs => ?_, fun a => rfl,
    fun op t m N v hN hfail hok => ?_⟩
  · exact withRetryFrom_attempts_le op t m (m + 1) 0
  · unfold withRetry withRetryFrom
    rw [h0]
    have hnr : isNonRetryable (.apiError ds msg) = true := by
      simp only [nonRetryableStatusCodes, List.mem_cons, List.not_mem_nil, or_false] at hs
      rcases hs with rfl | rfl | rfl | rfl <;>
        simp [isNonRetryable, hds, nonRetryableStatusCodes]
    simp only [hnr, if_true]
  · rw [withRetry, withRetryFrom_skip op t m N 0 (m + 1) (by omega) (by simpa using hfail)]
    obtain ⟨r, hr⟩ : ∃ r, m + 1 - N = r + 1 := ⟨m - N, by omega⟩
    rw [hr]
    conv_lhs => rw [withRetryFrom]
    rw [Nat.zero_add, hok]
    simp only [Prod.mk.injEq]
    refine ⟨by trivial, by omega, by simp⟩

/-- Witness for C4 (amended), instantiating each conjunct at concrete
operations: an always-401 operation is executed once; an operation
failing generically once and succeeding on the second attempt returns 7
after a single 1000 ms backoff. -/
theorem C4_retry_contract_witness :
    (withRetry (fun i => if i = 0 then AttemptResult.err (.generic "boom") else .ok (7 : Nat))
        60000 2).2.1 ≤ 3 ∧
    withRetry (fun _ => (AttemptResult.err (.apiError [("status", .num 401)] "auth") : AttemptResult Nat))
        60000 2 = (.nonRetryable (.apiError [("status", .num 401)] "auth"), 1, []) ∧
    backoffDelay 1 = 2000 ∧
    withRetry (fun i => if i = 0 then AttemptResult.err (.generic "boom") else .ok (7 : Nat))
        60000 2 = (.ok 7, 2, [1000]) :=
  ⟨(C4_retry_contract Nat).1 (fun i => if i = 0 then .err (.generic "boom") else .ok 7) 60000 2,
   (C4_retry_contract Nat).2.1 (fun _ => .err (.apiError [("status", .num 401)] "auth"))
     60000 2 [("status", .num 401)] "auth" 401 rfl rfl (by decide),
   (C4_retry_contract Nat).2.2.1 1,
   (C4_retry_contract Nat).2.2.2 (fun i => if i = 0 then .err (.generic "boom") else .ok 7)
     60000 2 1 7 (by omega) (by decide) rfl⟩

/-- C5 counterexample: with `maxRetries = 2`, an operation cancelled by
its timeout on the first attempt — a non-final attempt, whose successor
would succeed — is not retried: the engine stops after one attempt and
surfaces the Timeout failure, contrary to the claim that the remaining
attempts are performed. -/
theorem C5_timeout_counterexample :
    withRetry (fun i => if i = 0 then AttemptResult.err .abortError else .ok (1 : Nat)) 60000 2 =
      (.timeoutFailure (timeoutErrorMk "Request timed out after 60000ms"), 1, []) ∧
    (fun i => if i = 0 then AttemptResult.err .abortError else .ok (1 : Nat)) 1 = .ok 1 ∧
    (0 : Nat) < 2 :=
  ⟨rfl, rfl, by omega⟩

/-- C5 (amended): a timeout is never retried — whenever attempt `k`
(k ≤ maxRetries, so possibly non-final) is cancelled by its timeout after
`k` retryable failures, the engine immediately surfaces the Timeout
failure, having executed exactly `k + 1` attempts. -/
theorem C5_timeout_no_retry (α : Type) :
    ∀ (op : Nat → AttemptResult α) (t m k : Nat), k ≤ m →
    (∀ i, i < k → retryableFailure (op i) = true) →
    op k = .err .abortError →
    withRetry op t m =
      (.timeoutFailure (timeoutErrorMk ("Request timed out after " ++ toString t ++ "ms")),
       k + 1, (List.range k).map backoffDelay) := by
  intro op t m k hk hfail habort
  rw [withRetry, withRetryFrom_skip op t m k 0 (m + 1) (by omega) (by simpa using hfail)]
  obtain ⟨r, hr⟩ : ∃ r, m + 1 - k = r + 1 := ⟨m - k, by omega⟩
  rw [hr]
  conv_lhs => rw [withRetryFrom]
  rw [Nat.zero_add, habort]
  simp only [Prod.mk.injEq]
  refine ⟨by trivial, by omega, by simp⟩

/-- Witness for C5 (amended): one generic failure, then a timeout on the
second of three allowed attempts; the engine stops there. -/
theorem C5_timeout_no_retry_witness :
    withRetry (fun i => if i = 0 then (AttemptResult.err (.generic "x") : AttemptResult Nat)
        else .err .abortError) 60000 2 =
      (.timeoutFailure (timeoutErrorMk "Request timed out after 60000ms"), 2, [1000]) :=
  C5_timeout_no_retry Nat
    (fun i => if i = 0 then (.err (.generic "x") : AttemptResult Nat) else .err .abortError)
    60000 2 1 (by omega) (by decide) rfl

theorem parseHttpUrl_protocol (input : String) (u : UrlParts)
    (h : parseHttpUrl input = some u) : jsStartsWith u.protocol "http" = true := by
  unfold parseHttpUrl at h
  split at h
  · split at h
    · exact absurd h (by simp)
    · injection h with h2; rw [← h2]; rfl
  · split at h
    · split at h
      · exact absurd h (by simp)
      · injection h with h2; rw [← h2]; rfl
    · exact absurd h (by simp)

/-- C6 counterexample: with strict validation on (the default), the
non-image URL `"https://example.com/file.txt"` does not fail with an
InvalidInput error as claimed: the strict-validation `InvalidInputError`
is caught by `normalizeUrlInput`'s own `catch` and re-wrapped, so the
surfaced error is an ImageLoad error. -/
theorem C6_strict_counterexample :
    topErrCode (normalizeImageInput true (fun _ => FsRead.notFound)
      "https://example.com/file.txt") = some .imageLoad ∧
    VisionErrorCode.imageLoad ≠ .invalidInput :=
  ⟨rfl, by decide⟩

/-- C6 (amended): for every http(s) URL input that parses and whose path
does not end in an allowed image extension: with strict validation
enabled, normalization fails with an ImageLoad error
(`Failed to process URL input`) wrapping the strict-validation
InvalidInput error as its cause; with strict validation disabled it
succeeds, returning the URL itself as the canonical form with the
wildcard MIME type.  Strict validation defaults to on when the
environment variable is unset. -/
theorem C6_strict_url_validation :
    (∀ (input : String) (u : UrlParts) (fs : String → FsRead),
      detectInputType input = .url →
      parseHttpUrl input = some u →
      isImageUrl input = false →
      normalizeImageInput true fs input = .error (imageLoadError "Failed to process URL input"
        [("input", .str input)]
        (some (invalidInputError
          ("URL does not have a supported image extension (allowed: " ++
            String.intercalate ", " extToMimeKeys ++ ")")
          [("url", .str input)] none))) ∧
      normalizeImageInput false fs input = .ok ⟨.url, input, input, "image/*"⟩) ∧
    strictValidationFromEnv none = true := by
  refine ⟨fun input u fs hdet hparse himg => ?_, rfl⟩
  have hproto := parseHttpUrl_protocol input u hparse
  constructor <;>
    simp only [normalizeImageInput, hdet, normalizeUrlInput, hparse, hproto, himg,
      Bool.not_true, Bool.not_false, Bool.false_eq_true, if_false, Bool.true_and,
      Bool.and_false, if_true]

/-- Witness for C6 (amended) at `"https://example.com/file.txt"`. -/
theorem C6_strict_url_validation_witness :
    normalizeImageInput true (fun _ => FsRead.notFound) "https://example.com/file.txt" =
      .error (imageLoadError "Failed to process URL input"
        [("input", .str "https://example.com/file.txt")]
        (some (invalidInputError
          "URL does not have a supported image extension (allowed: .jpg, .jpeg, .png, .webp)"
          [("url", .str "https://example.com/file.txt")] none))) ∧
    normalizeImageInput false (fun _ => FsRead.notFound) "https://example.com/file.txt" =
      .ok ⟨.url, "https://example.com/file.txt", "https://example.com/file.txt", "image/*"⟩ :=
  C6_strict_url_validation.1 "https://example.com/file.txt" ⟨"https:", "/file.txt"⟩
    (fun _ => FsRead.notFound) rfl rfl rfl

/-- C7 counterexample: a local path with the unsupported extension
`.gif` and a data URL with the unsupported MIME type `image/gif` both
fail with an ImageLoad error, not the claimed InvalidInput error (the
internally thrown InvalidInput errors are caught and re-wrapped). -/
theorem C7_unsupported_counterexample :
    topErrCode (normalizeImageInput true (fun _ => FsRead.found [1]) "photo.gif") =
      some .imageLoad ∧
    topErrCode (normalizeImageInput true (fun _ => FsRead.found [1])
      "data:image/gif;base64,AAAA") = some .imageLoad ∧
    VisionErrorCode.imageLoad ≠ .invalidInput :=
  ⟨rfl, rfl, by decide⟩

/-- C7 (amended): an input with an unsupported image extension (a local
path whose extension is outside the allow-list, read as a non-empty file)
or an unsupported data-URL MIME type fails with an ImageLoad error whose
cause is an InvalidInput error whose details name the allowed set
(`supportedExtensions` resp. `supportedTypes`). -/
theorem C7_unsupported_type_errors :
    (∀ (input : String) (fs : String → FsRead) (bytes : List Nat),
      detectInputType input = .local →
      fs input = .found bytes → bytes.isEmpty = false →
      getMimeTypeFromFileName input = none →
      normalizeImageInput true fs input = .error (imageLoadError "Failed to read local file"
        [("path", .str input)]
        (some (invalidInputError ("Unsupported file extension: " ++ jsExtOf input)
          [("filename", .str input),
           ("supportedExtensions", .arr (extToMimeKeys.map .str))] none)))) ∧
    (∀ (input m : String) (fs : String → FsRead) (strict : Bool),
      detectInputType input = .base64 →
      jsIncludes input "," = true →
      countChar ',' input = 1 →
      dataUrlMimeRaw input = some m →
      SUPPORTED_MIME_TYPES.contains m = false →
      normalizeImageInput strict fs input = .error (imageLoadError "Invalid base64 data URL"
        [("input", .str input)]
        (some (invalidInputError ("Unsupported image MIME type: " ++ m)
          [("supportedTypes", .arr (SUPPORTED_MIME_TYPES.map .str))] none)))) := by
  constructor
  · intro input fs bytes hdet hfs hne hmime
    simp only [normalizeImageInput, hdet, normalizeLocalInput, hfs, hne, hmime,
      Bool.false_eq_true, if_false]
  · intro input m fs strict hdet hinc hcount hmime hsupp
    simp only [normalizeImageInput, hdet, normalizeBase64Input, hinc, hcount, hmime, hsupp,
      Bool.not_true, Bool.not_false, Bool.false_or, Bool.false_eq_true, if_false, if_true]
    simp

/-- Witness for C7 (amended) at the concrete inputs `"photo.gif"` and
`"data:image/gif;base64,AAAA"`. -/
theorem C7_unsupported_type_errors_witness :
    normalizeImageInput true (fun _ => FsRead.found [1]) "photo.gif" =
      .error (imageLoadError "Failed to read local file" [("path", .str "photo.gif")]
        (some (invalidInputError "Unsupported file extension: .gif"
          [("filename", .str "photo.gif"),
           ("supportedExtensions", .arr (extToMimeKeys.map .str))] none))) ∧
    normalizeImageInput true (fun _ => FsRead.found [1]) "data:image/gif;base64,AAAA" =
      .error (imageLoadError "Invalid base64 data URL"
        [("input", .str "data:image/gif;base64,AAAA")]
        (some (invalidInputError "Unsupported image MIME type: image/gif"
          [("supportedTypes", .arr (SUPPORTED_MIME_TYPES.map .str))] none))) :=
  ⟨C7_unsupported_type_errors.1 "photo.gif" (fun _ => FsRead.found [1]) [1] rfl rfl rfl rfl,
   C7_unsupported_type_errors.2 "data:image/gif;base64,AAAA" "image/gif"
     (fun _ => FsRead.found [1]) true rfl rfl rfl rfl rfl⟩

theorem b64Val_b64Char : ∀ i, i < 64 → b64Val (b64Char i) = some i := by decide

theorem b64Char_ne_eq : ∀ i, i < 64 → b64Char i ≠ '=' := by decide

theorem b64Decode_chunk (v0 v1 v2 v3 : Nat) (h0 : v0 < 64) (h1 : v1 < 64)
    (h2 : v2 < 64) (h3 : v3 < 64) (rest : List Char) (bs : List Nat)
    (hrest : b64DecodeBytes rest = some bs) :
    b64DecodeBytes (b64Char v0 :: b64Char v1 :: b64Char v2 :: b64Char v3 :: rest) =
      some ((v0 * 4 + v1 / 16) :: (v1 % 16 * 16 + v2 / 4) :: (v2 % 4 * 64 + v3) :: bs) := by
  rw [b64DecodeBytes]
  rw [b64Val_b64Char v0 h0, b64Val_b64Char v1 h1]
  simp only [decide_eq_false (b64Char_ne_eq v2 h2), decide_eq_false (b64Char_ne_eq v3 h3),
    Bool.false_and, Bool.and_false, Bool.false_eq_true, if_false]
  rw [b64Val_b64Char v2 h2]
  simp only [Bool.false_and, Bool.false_eq_true, if_false]
  rw [b64Val_b64Char v3 h3, hrest]

/-- Round trip: decoding the base64 encoding of a byte list recovers it. -/
theorem b64_roundtrip : ∀ (bs : List Nat), (∀ b ∈ bs, b < 256) →
    b64DecodeBytes (b64EncodeBytes bs) = some bs
  | [], _ => rfl
  | [a], h => by
    have ha : a < 256 := h a (by simp)
    rw [b64EncodeBytes, b64DecodeBytes]
    rw [b64Val_b64Char (a / 4) (by omega), b64Val_b64Char (a % 4 * 16) (by omega)]
    simp
    omega
  | [a, b], h => by
    have ha : a < 256 := h a (by simp)
    have hb : b < 256 := h b (by simp)
    rw [b64EncodeBytes, b64DecodeBytes]
    rw [b64Val_b64Char (a / 4) (by omega), b64Val_b64Char (a % 4 * 16 + b / 16) (by omega)]
    simp only [decide_eq_false (b64Char_ne_eq (b % 16 * 4) (by omega)), Bool.false_and,
      Bool.false_eq_true, if_false]
    rw [b64Val_b64Char (b % 16 * 4) (by omega)]
    simp
    constructor <;> omega
  | a :: b :: c :: d :: rest, h => by
    have ha : a < 256 := h a (by simp)
    have hb : b < 256 := h b (by simp)
    have hc : c < 256 := h c (by simp)
    have ih := b64_roundtrip (d :: rest) (fun x hx => h x (by simp at hx ⊢; tauto))
    rw [b64EncodeBytes,
      b64Decode_chunk _ _ _ _ (by omega) (by omega) (by omega) (by omega) _ _ ih]
    simp only [Option.some.injEq, List.cons.injEq]
    refine ⟨by omega, by omega, by omega, by trivial⟩

  | [a, b, c], h => by
    have ha : a < 256 := h a (by simp)
    have hb : b < 256 := h b (by simp)
    have hc : c < 256 := h c (by simp)
    rw [b64EncodeBytes,
      b64Decode_chunk _ _ _ _ (by omega) (by omega) (by omega) (by omega)
        (b64EncodeBytes []) [] (by rfl)]
    simp only [Option.some.injEq, List.cons.injEq, and_true]
    refine ⟨by omega, by omega, by omega⟩

/-- C8: normalizing a local file whose name carries a supported extension
yields a data URL `data:<mime>;base64,<payload>` whose MIME type is the
one mapped from the extension and whose payload decodes back to exactly
the file's bytes; and every extension-mapped MIME type is in the
supported set. -/
theorem C8_local_roundtrip :
    (∀ p ∈ EXT_TO_MIME_TYPE, p.snd ∈ SUPPORTED_MIME_TYPES) ∧
    (∀ (strict : Bool) (fs : String → FsRead) (path m : String) (bytes : List Nat),
      detectInputType path = .local →
      fs path = .found bytes → bytes.isEmpty = false →
      (∀ b ∈ bytes, b < 256) →
      getMimeTypeFromFileName path = some m →
      normalizeImageInput strict fs path =
        .ok ⟨.local, path, "data:" ++ m ++ ";base64," ++ ⟨b64EncodeBytes bytes⟩, m⟩ ∧
      b64DecodeBytes (b64EncodeBytes bytes) = some bytes) := by
  refine ⟨by decide, fun strict fs path m bytes hdet hfs hne hb hmime => ⟨?_, b64_roundtrip bytes hb⟩⟩
  simp only [normalizeImageInput, hdet, normalizeLocalInput, hfs, hne, hmime,
    Bool.false_eq_true, if_false]

/-- Witness for C8 at a concrete PNG-named file with bytes `[137, 80, 78]`
(base64 `iVBO`). -/
theorem C8_local_roundtrip_witness :
    normalizeImageInput true (fun p => if p = "img.png" then FsRead.found [137, 80, 78] else .notFound)
      "img.png" = .ok ⟨.local, "img.png", "data:image/png;base64,iVBO", "image/png"⟩ ∧
    b64DecodeBytes (b64EncodeBytes [137, 80, 78]) = some [137, 80, 78] :=
  C8_local_roundtrip.2 true
    (fun p => if p = "img.png" then FsRead.found [137, 80, 78] else .notFound)
    "img.png" "image/png" [137, 80, 78] rfl rfl rfl (by decide) rfl

end VisionMCP
